import Mathlib

/-
Verification of the LCR measurement-recorder (`src/LCR_Comm_Script.py`).

The acquisition loop `RecordMeasurements` is embedded as a trace semantics:
the external world (stop flag reads, per-iteration trigger/fetch outcomes,
time reads, whether the final transport close raises) is an `Env`, and a
fuel-bounded runner produces the ordered list of observable events of one
session.  Time is modelled in integer milliseconds since the session start
epoch, which is exactly the precision at which the code formats timestamps
("{:.3f}").  The input validation of `StartRecording` is embedded as a pure
function from (possibly unparseable) operator inputs to a validated
configuration or a tagged rejection.
-/

deriving instance DecidableEq for Except

namespace LCR

/-- Mapping from measurement mode to expected CSV header, translated from
`HeaderMapping` (`LCR_Comm_Script.py` lines 12-20). -/
def HeaderMapping : List (String × List String) :=
  [("Z-deg", ["Timestamp", "Impedance (Ohm)", "Phase Angle (deg)"]),
   ("R-X",   ["Timestamp", "Resistance (Ohm)", "Reactance (Ohm)"]),
   ("C",     ["Timestamp", "Capacitance (F)"]),
   ("L",     ["Timestamp", "Inductance (H)"]),
   ("Q",     ["Timestamp", "Quality Factor"]),
   ("D",     ["Timestamp", "Dissipation Factor"]),
   ("DCR",   ["Timestamp", "DC Resistance (Ohm)"])]

/-- The modes enumerated in `HeaderMapping` (also `mode_options`, line 147). -/
def modeKeys : List String := ["Z-deg", "R-X", "C", "L", "Q", "D", "DCR"]

/-- `header = HeaderMapping.get(measurement_mode, ["Timestamp", "Measurement Value", "N/A"])`
(line 104). -/
def headerFor (mode : String) : List String :=
  (HeaderMapping.lookup mode).getD ["Timestamp", "Measurement Value", "N/A"]

/-- `expected_values = len(header) - 1` (line 105). -/
def expectedValues (mode : String) : Nat := (headerFor mode).length - 1

/-- Whitespace characters removed by Python's `str.strip`. -/
def isPySpace (c : Char) : Bool :=
  c.toNat = 32 ∨ c.toNat = 9 ∨ c.toNat = 10 ∨ c.toNat = 13 ∨ c.toNat = 11 ∨ c.toNat = 12

/-- Python's `str.strip` on a character list: drop whitespace from both ends. -/
def pyStrip (s : List Char) : List Char :=
  ((s.dropWhile isPySpace).reverse.dropWhile isPySpace).reverse

/-- Python's `str.strip` on a string. -/
def pyStripS (s : String) : String := String.mk (pyStrip s.data)

/-- Python's `str.split(',')`: split into groups at every comma; the empty
string yields one empty field. -/
def splitCommas : List Char → List (List Char)
  | [] => [[]]
  | c :: rest =>
    if c = ',' then [] :: splitCommas rest
    else
      match splitCommas rest with
      | [] => [[c]]
      | g :: gs => (c :: g) :: gs

/-- `values = [val.strip() for val in data.strip().split(',')]` (line 119). -/
def parseValues (data : String) : List String :=
  (splitCommas (pyStrip data.data)).map (fun cs => String.mk (pyStrip cs))

/-- The three digits after the decimal point of an elapsed time of `ms`
milliseconds, as printed by `"{:.3f}".format` (line 124). -/
def fracDigits (ms : Nat) : String :=
  String.mk [Char.ofNat (48 + ms / 100 % 10),
             Char.ofNat (48 + ms / 10 % 10),
             Char.ofNat (48 + ms % 10)]

/-- `relativeTimestamp = "{:.3f}".format(time.time() - start_time)` (line 124),
for an elapsed time of `ms` milliseconds: integral seconds, a dot, then
exactly three fractional digits. -/
def format3 (ms : Nat) : String := toString (ms / 1000) ++ "." ++ fracDigits ms

/-- `row = [relativeTimestamp] + values` (line 125) for an ok iteration that
fetched `p.1` at elapsed time `p.2` ms. -/
def mkRow (p : String × Nat) : List String := format3 p.2 :: parseValues p.1

/-- Outcome of the body of one loop iteration (the `try` block, lines 113-128):
either some step raised (at the trigger write, at the fetch query, or at the
row append), or everything succeeded with fetched response `data` read at
elapsed time `elapsedMs` milliseconds since the session start epoch. -/
inductive Outcome
  | errTrigger
  | errFetch
  | errAppend (data : String) (elapsedMs : Nat)
  | ok (data : String) (elapsedMs : Nat)
deriving DecidableEq

/-- Observable events of one recording session.  `advisory` is the
schema-mismatch warning of the spec's status contract; the source only
contains it commented out (lines 120-122), so the runner never emits it. -/
inductive Ev
  | headerWrite (cols : List String)
  | stopCheck (flag : Bool)
  | trg
  | fetch (data : String)
  | rowWrite (row : List String)
  | flush
  | printRow (ts : String) (vals : List String)
  | iterFail
  | advisory
  | closeCall
  | stoppedStatus
deriving DecidableEq

/-- The external world of one session: the value the `i`-th read of
`StopEvent.is_set()` returns, the outcome of the `i`-th iteration body, and
whether `instrument.close()` itself raises. -/
structure Env where
  stop : Nat → Bool
  out : Nat → Outcome
  closeFails : Bool

/-- Events of one iteration body (lines 113-130): on success, trigger, fetch,
row append, immediate flush, and the observation print; on an error, the
events up to the failing step followed by the caught-and-reported
`iterFail` print (line 130).  No row is appended on an error. -/
def iterEvents : Outcome → List Ev
  | .errTrigger => [.iterFail]
  | .errFetch => [.trg, .iterFail]
  | .errAppend d _ => [.trg, .fetch d, .iterFail]
  | .ok d t => [.trg, .fetch d, .rowWrite (format3 t :: parseValues d), .flush,
                .printRow (format3 t) (parseValues d)]

/-- The `while not StopEvent.is_set():` loop (lines 112-131), fuel-bounded:
returns the events emitted and whether the loop exited via the stop check
within the given fuel. -/
def loopRun (env : Env) : Nat → Nat → List Ev × Bool
  | _, 0 => ([], false)
  | i, fuel + 1 =>
    if env.stop i then ([Ev.stopCheck true], true)
    else
      let r := loopRun env (i + 1) fuel
      (Ev.stopCheck false :: iterEvents (env.out i) ++ r.1, r.2)

/-- What happens after the loop exits (lines 132-133): `instrument.close()`
is called; if it raises, the status update never runs. -/
def closeTail (env : Env) : List Ev :=
  if env.closeFails then [Ev.closeCall] else [Ev.closeCall, Ev.stoppedStatus]

/-- One whole session of `RecordMeasurements`: header row written first
(line 110), then the loop; if the loop terminated, the unguarded
`instrument.close()` runs (line 132).  The second component records whether
an exception escaped past the loop boundary (true exactly when the close
itself raised, since every iteration error is caught inside the loop). -/
def sessionRun (mode : String) (env : Env) (fuel : Nat) : List Ev × Bool :=
  let l := loopRun env 0 fuel
  if l.2 then (Ev.headerWrite (headerFor mode) :: l.1 ++ closeTail env, env.closeFails)
  else (Ev.headerWrite (headerFor mode) :: l.1, false)

/-- Data rows appended to the CSV sink, in order, read off a trace. -/
def rowsOf (evs : List Ev) : List (List String) :=
  evs.filterMap fun e => match e with | .rowWrite r => some r | _ => none

/-- All `writer.writerow` calls (header and data rows), in order. -/
def writesOf (evs : List Ev) : List (List String) :=
  evs.filterMap fun e => match e with
    | .headerWrite c => some c
    | .rowWrite r => some r
    | _ => none

def isStopCheck : Ev → Bool | .stopCheck _ => true | _ => false

def isHeaderWrite : Ev → Bool | .headerWrite _ => true | _ => false

/-- Hardware commands sent to the instrument during the loop. -/
def isHardwareCmd : Ev → Bool | .trg => true | .fetch _ => true | _ => false

def isCloseCall : Ev → Bool | .closeCall => true | _ => false

def isErr : Outcome → Bool | .ok _ _ => false | _ => true

/-- The concatenated per-iteration blocks for iterations `i, i+1, ..., i+n-1`,
each a stop check reading false followed by that iteration's events. -/
def blocksFrom (env : Env) : Nat → Nat → List Ev
  | _, 0 => []
  | i, n + 1 => (Ev.stopCheck false :: iterEvents (env.out i)) ++ blocksFrom env (i + 1) n

/-- The (data, elapsedMs) pairs of the successful iterations among
`i, ..., i+n-1`, in order. -/
def okListFrom (env : Env) : Nat → Nat → List (String × Nat)
  | _, 0 => []
  | i, n + 1 =>
    (match env.out i with | .ok d t => [(d, t)] | _ => []) ++ okListFrom env (i + 1) n

/-- Number of successful iterations among `i, ..., i+n-1`. -/
def successCount (env : Env) : Nat → Nat → Nat
  | _, 0 => 0
  | i, n + 1 => (if isErr (env.out i) then 0 else 1) + successCount env (i + 1) n

/-- File open modes of the sink. -/
inductive FileOpenMode
  | write
  | appendMode
deriving DecidableEq

/-- Contents of the file right after opening it over prior contents. -/
def openContents (prior : List (List String)) : FileOpenMode → List (List String)
  | .write => []
  | .appendMode => prior

/-- `open(filename, mode="w", newline="")` (line 108): the sink is opened in
write mode. -/
def recordOpenMode : FileOpenMode := FileOpenMode.write

/-- Contents of the destination file after a session, given its prior
contents: whatever survives the open, followed by every row written. -/
def fileAfterSession (prior : List (List String)) (mode : String) (env : Env)
    (fuel : Nat) : List (List String) :=
  openContents prior recordOpenMode ++ writesOf (sessionRun mode env fuel).1

/-- Every appended data row is immediately followed by a flush of the file. -/
def RowFlushed (l : List Ev) : Prop :=
  ∀ k r, l.get? k = some (Ev.rowWrite r) → l.get? (k + 1) = some Ev.flush

/-- Tagged rejection reasons of `StartRecording` (lines 26-55). -/
inductive InputError
  | freqRange
  | levelRange
  | intervalPositive
  | emptyFilename
deriving DecidableEq

/-- The validated configuration assembled by `StartRecording`. -/
structure Config where
  mode : String
  freq : ℚ
  level : ℚ
  speed : String
  interval : ℚ
  filename : String
deriving DecidableEq

/-- Python's `str.lower` on one character (ASCII case fold). -/
def pyLower (c : Char) : Char :=
  if 65 ≤ c.toNat ∧ c.toNat ≤ 90 then Char.ofNat (c.toNat + 32) else c

/-- `Filename.lower().endswith(".csv")` (line 57), on a character list. -/
def endsCsvLower (cs : List Char) : Bool :=
  decide (((cs.map pyLower).reverse.take 4) = ['v', 's', 'c', '.'])

/-- `20 <= SamplingFreq <= 500000` (line 28). -/
def freqInRange (f : ℚ) : Bool := decide (20 ≤ f) && decide (f ≤ 500000)

/-- The level lower bound 0.005 V, given in lowest terms so that the kernel
can evaluate comparisons against it. -/
def levelMin : ℚ := ⟨1, 200, by norm_num, by norm_num⟩

/-- `0.005 <= SampleLevel <= 2` (line 36). -/
def levelInRange (l : ℚ) : Bool := decide (levelMin ≤ l) && decide (l ≤ 2)

/-- `RecordInterval > 0` (negation of the rejection test on line 46). -/
def intervalPos (r : ℚ) : Bool := decide (0 < r)

/-- The validation sequence of `StartRecording` (lines 26-58), in source
order: frequency, level, interval, then filename.  A `none` input models a
string `float()` fails to parse (the `ValueError` is caught by the same
handler as the range test).  The filename is stripped and `.csv` appended
when the lowercased name does not already end in it (lines 52-58). -/
def StartValidate (mode : String) (freqIn levelIn : Option ℚ) (speed : String)
    (intervalIn : Option ℚ) (filenameIn : String) : Except InputError Config :=
  match freqIn with
  | none => .error .freqRange
  | some f =>
    if freqInRange f then
      match levelIn with
      | none => .error .levelRange
      | some l =>
        if levelInRange l then
          match intervalIn with
          | none => .error .intervalPositive
          | some r =>
            if intervalPos r then
              let fn := pyStripS filenameIn
              if fn = "" then .error .emptyFilename
              else .ok { mode := mode, freq := f, level := l, speed := speed,
                         interval := r,
                         filename := if endsCsvLower fn.data then fn
                                     else fn ++ ".csv" }
            else .error .intervalPositive
        else .error .levelRange
    else .error .freqRange

/-- Actions `StartRecording` takes against the outside world. -/
inductive StartAction
  | openConn
  | cfgWrite (cmd : String)
  | closeConn
  | launchLoop
deriving DecidableEq

/-- Python's `str.upper` on one character (ASCII case raise). -/
def pyUpper (c : Char) : Char :=
  if 97 ≤ c.toNat ∧ c.toNat ≤ 122 then Char.ofNat (c.toNat - 32) else c

/-- The four setup commands (lines 60-64). -/
def cfgCommands (cfg : Config) : List String :=
  ["FUNC " ++ cfg.mode, "FREQ " ++ toString cfg.freq ++ "HZ",
   "VOLT " ++ toString cfg.level ++ " V",
   "APER " ++ String.mk (cfg.speed.data.map pyUpper)]

/-- The action trace of `StartRecording` (lines 22-100): nothing at all on a
validation rejection; otherwise open the connection, and if that succeeded
send the setup commands, closing and aborting at the first failing one
(`cfgFail` gives the index of the failing command, if any), else hand the
session to the background loop. -/
def startActions (mode : String) (freqIn levelIn : Option ℚ) (speed : String)
    (intervalIn : Option ℚ) (filenameIn : String) (connOk : Bool)
    (cfgFail : Option Nat) : List StartAction :=
  match StartValidate mode freqIn levelIn speed intervalIn filenameIn with
  | .error _ => []
  | .ok cfg =>
    match connOk with
    | false => [.openConn]
    | true =>
      match cfgFail with
      | some k =>
        .openConn :: ((cfgCommands cfg).take k).map StartAction.cfgWrite ++ [.closeConn]
      | none => .openConn :: (cfgCommands cfg).map StartAction.cfgWrite ++ [.launchLoop]

/-- Acceptance of an operator-supplied sampling frequency. -/
def acceptsFreq (o : Option ℚ) : Bool :=
  match o with | some f => freqInRange f | none => false

/-- Acceptance of an operator-supplied signal level. -/
def acceptsLevel (o : Option ℚ) : Bool :=
  match o with | some l => levelInRange l | none => false

/-- Acceptance of an operator-supplied recording interval. -/
def acceptsInterval (o : Option ℚ) : Bool :=
  match o with | some r => intervalPos r | none => false

/-- The elapsed-ms values of the successful iterations among the first `n`. -/
def okTimes (env : Env) (n : Nat) : List Nat := (okListFrom env 0 n).map Prod.snd

/-- Concrete session: 3 iterations, the second one fails at the fetch. -/
def envC1 : Env :=
  ⟨fun i => decide (3 ≤ i),
   fun i => if i = 1 then Outcome.errFetch else Outcome.ok "1.5e-9" (1000 * (i + 1)),
   false⟩

/-- Concrete session: 2 clean iterations then stop. -/
def envC2 : Env := ⟨fun i => decide (2 ≤ i), fun _ => Outcome.ok "5" 500, false⟩

/-- Concrete session: 2 clean iterations 1000 ms apart. -/
def envC3 : Env :=
  ⟨fun i => decide (2 ≤ i), fun i => Outcome.ok "9" (1000 * (i + 1)), false⟩

/-- Concrete session: one clean iteration. -/
def envC4 : Env := ⟨fun i => decide (1 ≤ i), fun _ => Outcome.ok "7" 250, false⟩

/-- Concrete session: one iteration fetching a padded two-field response. -/
def envC5 : Env :=
  ⟨fun i => decide (1 ≤ i), fun _ => Outcome.ok " 1.0 , 2.0 " 1234, false⟩

/-- Concrete session: one iteration fetching three fields in mode C. -/
def envC7 : Env :=
  ⟨fun i => decide (1 ≤ i), fun _ => Outcome.ok "1, 2, 3" 500, false⟩

/-- Concrete session whose transport close raises. -/
def envC8 : Env := ⟨fun i => decide (1 ≤ i), fun _ => Outcome.errFetch, true⟩

/-- Concrete session whose final iteration errors and whose close succeeds. -/
def envC8w : Env :=
  ⟨fun i => decide (2 ≤ i),
   fun i => if i = 1 then Outcome.errFetch else Outcome.ok "3" 100,
   false⟩

theorem rowsOf_append (xs ys : List Ev) :
    rowsOf (xs ++ ys) = rowsOf xs ++ rowsOf ys := by
  simp [rowsOf, List.filterMap_append]

theorem writesOf_append (xs ys : List Ev) :
    writesOf (xs ++ ys) = writesOf xs ++ writesOf ys := by
  simp [writesOf, List.filterMap_append]

/-- If the stop flag reads false for the `n` polls starting at `i` and true at
the next one, the loop from `i` runs exactly those `n` iteration blocks and
then exits at the stop check. -/
theorem loopRun_closed (env : Env) :
    ∀ n i fuel, (∀ j, j < n → env.stop (i + j) = false) → env.stop (i + n) = true →
      n < fuel →
      loopRun env i fuel = (blocksFrom env i n ++ [Ev.stopCheck true], true) := by
  intro n
  induction n with
  | zero =>
    intro i fuel _ h2 hf
    cases fuel with
    | zero => omega
    | succ f =>
      simp only [Nat.add_zero] at h2
      simp [loopRun, h2, blocksFrom]
  | succ n ih =>
    intro i fuel h1 h2 hf
    cases fuel with
    | zero => omega
    | succ f =>
      have h0 : env.stop i = false := by
        have := h1 0 (Nat.succ_pos n)
        simpa using this
      have hrec := ih (i + 1) f
        (fun j hj => by
          have he : i + 1 + j = i + (j + 1) := by omega
          rw [he]
          exact h1 (j + 1) (by omega))
        (by
          have he : i + 1 + n = i + (n + 1) := by omega
          rw [he]
          exact h2)
        (by omega)
      simp [loopRun, h0, hrec, blocksFrom, List.append_assoc]

/-- Closed form of one whole terminated session. -/
theorem sessionRun_closed (mode : String) (env : Env) {n fuel : Nat}
    (h1 : ∀ j, j < n → env.stop j = false) (h2 : env.stop n = true) (hf : n < fuel) :
    sessionRun mode env fuel =
      (Ev.headerWrite (headerFor mode) ::
        (blocksFrom env 0 n ++ Ev.stopCheck true :: closeTail env),
       env.closeFails) := by
  have hc := loopRun_closed env n 0 fuel (fun j hj => by simpa using h1 j hj)
    (by simpa using h2) hf
  simp [sessionRun, hc, List.append_assoc]

/-- An erroring iteration appends no row. -/
theorem rowsOf_iterEvents_err (o : Outcome) (h : isErr o = true) :
    rowsOf (iterEvents o) = [] := by
  cases o <;> simp_all [isErr, iterEvents, rowsOf]

/-- The rows appended across iteration blocks are exactly the rows of the
successful iterations, in order. -/
theorem rowsOf_blocksFrom (env : Env) :
    ∀ n i, rowsOf (blocksFrom env i n) = (okListFrom env i n).map mkRow := by
  intro n
  induction n with
  | zero => intro i; simp [blocksFrom, okListFrom, rowsOf]
  | succ n ih =>
    intro i
    cases h : env.out i <;>
      simp [blocksFrom, okListFrom, rowsOf, iterEvents, h, List.filterMap_append,
        mkRow, ih i.succ] <;>
      simpa [rowsOf] using ih (i + 1)

theorem rowsOf_closeTail (env : Env) : rowsOf (closeTail env) = [] := by
  cases h : env.closeFails <;> simp [closeTail, h, rowsOf]

/-- The data rows of one terminated session: exactly one per successful
iteration, in order. -/
theorem sinkRows_closed (mode : String) (env : Env) {n fuel : Nat}
    (h1 : ∀ j, j < n → env.stop j = false) (h2 : env.stop n = true) (hf : n < fuel) :
    rowsOf (sessionRun mode env fuel).1 = (okListFrom env 0 n).map mkRow := by
  rw [sessionRun_closed mode env h1 h2 hf]
  have hsplit : Ev.headerWrite (headerFor mode) ::
      (blocksFrom env 0 n ++ Ev.stopCheck true :: closeTail env)
      = ([Ev.headerWrite (headerFor mode)] ++ blocksFrom env 0 n)
        ++ ([Ev.stopCheck true] ++ closeTail env) := by simp
  rw [hsplit, rowsOf_append, rowsOf_append, rowsOf_append, rowsOf_blocksFrom,
    rowsOf_closeTail]
  simp [rowsOf]

theorem rowsOf_nil : rowsOf [] = [] := rfl

theorem writesOf_nil : writesOf [] = [] := rfl

theorem rowsOf_cons_stopCheck (b : Bool) (l : List Ev) :
    rowsOf (Ev.stopCheck b :: l) = rowsOf l := rfl

theorem writesOf_cons_stopCheck (b : Bool) (l : List Ev) :
    writesOf (Ev.stopCheck b :: l) = writesOf l := rfl

theorem rowsOf_cons_headerWrite (c : List String) (l : List Ev) :
    rowsOf (Ev.headerWrite c :: l) = rowsOf l := rfl

theorem writesOf_cons_headerWrite (c : List String) (l : List Ev) :
    writesOf (Ev.headerWrite c :: l) = c :: writesOf l := rfl

theorem writesOf_iterEvents (o : Outcome) :
    writesOf (iterEvents o) = rowsOf (iterEvents o) := by
  cases o <;> rfl

/-- The loop writes only data rows (its header is written before the loop). -/
theorem writesOf_loopRun (env : Env) :
    ∀ fuel i, writesOf (loopRun env i fuel).1 = rowsOf (loopRun env i fuel).1 := by
  intro fuel
  induction fuel with
  | zero => intro i; rfl
  | succ f ih =>
    intro i
    cases h : env.stop i
    · simp only [loopRun, h, Bool.false_eq_true, if_false, List.cons_append]
      rw [writesOf_cons_stopCheck, rowsOf_cons_stopCheck, writesOf_append,
        rowsOf_append, writesOf_iterEvents, ih]
    · simp [loopRun, h, writesOf, rowsOf]

theorem writesOf_closeTail (env : Env) : writesOf (closeTail env) = [] := by
  cases h : env.closeFails <;> simp [closeTail, h, writesOf]

/-- Every session trace is the header write followed by the loop events and,
when the loop terminated, the close events. -/
theorem sessionRun_trace_shape (mode : String) (env : Env) (fuel : Nat) :
    (sessionRun mode env fuel).1 = Ev.headerWrite (headerFor mode) ::
      ((loopRun env 0 fuel).1 ++
        if (loopRun env 0 fuel).2 then closeTail env else []) := by
  cases h : (loopRun env 0 fuel).2 <;> simp [sessionRun, h]

/-- Everything ever written to the sink is the header followed by the data
rows, in order. -/
theorem writesOf_session (mode : String) (env : Env) (fuel : Nat) :
    writesOf (sessionRun mode env fuel).1 =
      headerFor mode :: rowsOf (loopRun env 0 fuel).1 := by
  rw [sessionRun_trace_shape, writesOf_cons_headerWrite, writesOf_append,
    writesOf_loopRun]
  cases h : (loopRun env 0 fuel).2
  · simp [writesOf_nil]
  · simp [writesOf_closeTail]

theorem rowsOf_session (mode : String) (env : Env) (fuel : Nat) :
    rowsOf (sessionRun mode env fuel).1 = rowsOf (loopRun env 0 fuel).1 := by
  rw [sessionRun_trace_shape, rowsOf_cons_headerWrite, rowsOf_append]
  cases h : (loopRun env 0 fuel).2
  · simp [rowsOf_nil]
  · simp [rowsOf_closeTail]

/-- Adding fuel only ever extends the events of the loop: the event log, and
with it the sink, is append-only. -/
theorem loopRun_fuel_ext (env : Env) :
    ∀ fuel k i, ∃ t, (loopRun env i (fuel + k)).1 = (loopRun env i fuel).1 ++ t := by
  intro fuel
  induction fuel with
  | zero => intro k i; exact ⟨(loopRun env i k).1, by simp [loopRun]⟩
  | succ f ih =>
    intro k i
    have he : f + 1 + k = (f + k) + 1 := by omega
    cases h : env.stop i
    · obtain ⟨t, ht⟩ := ih k (i + 1)
      refine ⟨t, ?_⟩
      rw [he]
      simp [loopRun, h, ht, List.append_assoc]
    · refine ⟨[], ?_⟩
      rw [he]
      simp [loopRun, h]

theorem countP_stopCheck_iterEvents (o : Outcome) :
    (iterEvents o).countP isStopCheck = 0 := by
  cases o <;> rfl

/-- Exactly one stop poll per iteration block. -/
theorem countP_stopCheck_blocksFrom (env : Env) :
    ∀ n i, (blocksFrom env i n).countP isStopCheck = n := by
  intro n
  induction n with
  | zero => intro i; rfl
  | succ n ih =>
    intro i
    simp [blocksFrom, List.countP_append, List.countP_cons, isStopCheck,
      countP_stopCheck_iterEvents, ih]

theorem countP_closeCall_iterEvents (o : Outcome) :
    (iterEvents o).countP isCloseCall = 0 := by
  cases o <;> rfl

theorem countP_closeCall_blocksFrom (env : Env) :
    ∀ n i, (blocksFrom env i n).countP isCloseCall = 0 := by
  intro n
  induction n with
  | zero => intro i; rfl
  | succ n ih =>
    intro i
    simp [blocksFrom, List.countP_append, List.countP_cons, isCloseCall,
      countP_closeCall_iterEvents, ih]

theorem countP_closeCall_closeTail (env : Env) :
    (closeTail env).countP isCloseCall = 1 := by
  cases h : env.closeFails <;> simp [closeTail, h, isCloseCall, List.countP_cons]

theorem countP_headerWrite_iterEvents (o : Outcome) :
    (iterEvents o).countP isHeaderWrite = 0 := by
  cases o <;> rfl

theorem countP_headerWrite_loopRun (env : Env) :
    ∀ fuel i, ((loopRun env i fuel).1).countP isHeaderWrite = 0 := by
  intro fuel
  induction fuel with
  | zero => intro i; rfl
  | succ f ih =>
    intro i
    cases h : env.stop i <;>
      simp [loopRun, h, List.countP_append, List.countP_cons, isHeaderWrite,
        countP_headerWrite_iterEvents, ih]

theorem countP_headerWrite_closeTail (env : Env) :
    (closeTail env).countP isHeaderWrite = 0 := by
  cases h : env.closeFails <;> simp [closeTail, h, isHeaderWrite, List.countP_cons]

theorem advisory_not_mem_iterEvents (o : Outcome) : Ev.advisory ∉ iterEvents o := by
  cases o <;> simp [iterEvents]

theorem advisory_not_mem_loopRun (env : Env) :
    ∀ fuel i, Ev.advisory ∉ (loopRun env i fuel).1 := by
  intro fuel
  induction fuel with
  | zero => intro i h; simp [loopRun] at h
  | succ f ih =>
    intro i
    cases h : env.stop i <;>
      simp [loopRun, h, advisory_not_mem_iterEvents, ih]

theorem advisory_not_mem_closeTail (env : Env) : Ev.advisory ∉ closeTail env := by
  cases h : env.closeFails <;> simp [closeTail, h]

/-- The source never emits the schema-mismatch advisory: it is commented out
(lines 120-122). -/
theorem advisory_not_mem_session (mode : String) (env : Env) (fuel : Nat) :
    Ev.advisory ∉ (sessionRun mode env fuel).1 := by
  rw [sessionRun_trace_shape]
  intro hmem
  rcases List.mem_cons.mp hmem with h | h
  · exact absurd h (by simp)
  · rcases List.mem_append.mp h with h | h
    · exact advisory_not_mem_loopRun env fuel 0 h
    · rcases hc : (loopRun env 0 fuel).2 with _ | _ <;> rw [hc] at h
      · simp at h
      · exact advisory_not_mem_closeTail env (by simpa using h)

theorem okListFrom_length (env : Env) :
    ∀ n i, (okListFrom env i n).length = successCount env i n := by
  intro n
  induction n with
  | zero => intro i; rfl
  | succ n ih =>
    intro i
    cases h : env.out i <;> simp [okListFrom, successCount, isErr, h, ih] <;> omega

theorem okListFrom_mem (env : Env) :
    ∀ n i j d t, j < n → env.out (i + j) = .ok d t → (d, t) ∈ okListFrom env i n := by
  intro n
  induction n with
  | zero => intro i j d t hj; omega
  | succ n ih =>
    intro i j d t hj hout
    cases j with
    | zero =>
      simp only [Nat.add_zero] at hout
      simp [okListFrom, hout]
    | succ j =>
      have he : i + (j + 1) = (i + 1) + j := by omega
      rw [he] at hout
      have hm := ih (i + 1) j d t (by omega) hout
      cases ho : env.out i <;> simp [okListFrom, ho, hm]

theorem rowWrite_mem_of_mem_rowsOf {l : List Ev} {r : List String}
    (h : r ∈ rowsOf l) : Ev.rowWrite r ∈ l := by
  simp only [rowsOf, List.mem_filterMap] at h
  obtain ⟨e, he, hm⟩ := h
  cases e <;> simp_all

theorem rowFlushed_append {xs ys : List Ev} (hx : RowFlushed xs) (hy : RowFlushed ys) :
    RowFlushed (xs ++ ys) := by
  intro k r h
  by_cases hk2 : k < xs.length
  · rw [List.get?_append hk2] at h
    have hf := hx k r h
    obtain ⟨hlt, -⟩ := List.get?_eq_some.mp hf
    rw [List.get?_append hlt]
    exact hf
  · have hge : xs.length ≤ k := by omega
    rw [List.get?_append_right hge] at h
    have hf := hy (k - xs.length) r h
    rw [List.get?_append_right (by omega)]
    have he : k + 1 - xs.length = (k - xs.length) + 1 := by omega
    rw [he]
    exact hf

theorem rowFlushed_of_no_row {l : List Ev} (h : ∀ r, Ev.rowWrite r ∉ l) :
    RowFlushed l := by
  intro k r hk
  exact absurd (List.get?_mem hk) (h r)

/-- Within one iteration, the row write is immediately followed by the flush. -/
theorem rowFlushed_iterEvents (o : Outcome) : RowFlushed (iterEvents o) := by
  cases o with
  | ok d t =>
    intro k r h
    match k with
    | 0 => simp [iterEvents, List.get?] at h
    | 1 => simp [iterEvents, List.get?] at h
    | 2 => rfl
    | 3 => simp [iterEvents, List.get?] at h
    | 4 => simp [iterEvents, List.get?] at h
    | n + 5 => simp [iterEvents, List.get?] at h
  | errTrigger => exact rowFlushed_of_no_row (by intro r; simp [iterEvents])
  | errFetch => exact rowFlushed_of_no_row (by intro r; simp [iterEvents])
  | errAppend d t => exact rowFlushed_of_no_row (by intro r; simp [iterEvents])

theorem rowFlushed_loopRun (env : Env) :
    ∀ fuel i, RowFlushed (loopRun env i fuel).1 := by
  intro fuel
  induction fuel with
  | zero => intro i k r h; simp [loopRun] at h
  | succ f ih =>
    intro i
    cases h : env.stop i
    · simp only [loopRun, h, Bool.false_eq_true, if_false]
      have h1 : RowFlushed [Ev.stopCheck false] :=
        rowFlushed_of_no_row (by intro r; simp)
      exact rowFlushed_append (rowFlushed_append h1 (rowFlushed_iterEvents _))
        (ih (i + 1))
    · simp only [loopRun, h, if_true]
      have h1 : RowFlushed [Ev.stopCheck true] :=
        rowFlushed_of_no_row (by intro r; simp)
      exact h1

theorem rowFlushed_closeTail (env : Env) : RowFlushed (closeTail env) := by
  apply rowFlushed_of_no_row
  intro r
  cases h : env.closeFails <;> simp [closeTail, h]

/-- Every data row the session writes is immediately followed by a flush. -/
theorem rowFlushed_session (mode : String) (env : Env) (fuel : Nat) :
    RowFlushed (sessionRun mode env fuel).1 := by
  rw [sessionRun_trace_shape]
  have hsh : Ev.headerWrite (headerFor mode) ::
      ((loopRun env 0 fuel).1 ++ if (loopRun env 0 fuel).2 then closeTail env else [])
      = ([Ev.headerWrite (headerFor mode)] ++ (loopRun env 0 fuel).1)
        ++ (if (loopRun env 0 fuel).2 then closeTail env else []) := by
    simp
  rw [hsh]
  have h1 : RowFlushed [Ev.headerWrite (headerFor mode)] :=
    rowFlushed_of_no_row (by intro r; simp)
  refine rowFlushed_append (rowFlushed_append h1 (rowFlushed_loopRun env fuel 0)) ?_
  cases h : (loopRun env 0 fuel).2
  · exact rowFlushed_of_no_row (by intro r; simp)
  · exact rowFlushed_closeTail env

theorem countP_stopCheck_closeTail (env : Env) :
    (closeTail env).countP isStopCheck = 0 := by
  cases h : env.closeFails <;> simp [closeTail, h, isStopCheck, List.countP_cons]

theorem countP_hardware_stopClose (env : Env) :
    (Ev.stopCheck true :: closeTail env).countP isHardwareCmd = 0 := by
  cases h : env.closeFails <;>
    simp [closeTail, h, isHardwareCmd, List.countP_cons]

/-- C1: in every terminated session, an iteration on which one of steps 2-7
(trigger, settle, fetch, parse, timestamp, append) raises contributes no row
to the sink but does report the caught error, and the loop still runs every
remaining iteration up to the stop check that ends the session: the sink
holds exactly the rows of the successful iterations, in order. -/
theorem c1_iteration_error_isolated (mode : String) (env : Env) (n fuel : Nat)
    (h1 : ∀ j, j < n → env.stop j = false) (h2 : env.stop n = true) (hf : n < fuel) :
    rowsOf (sessionRun mode env fuel).1 = (okListFrom env 0 n).map mkRow
    ∧ (∀ k, k < n → isErr (env.out k) = true →
        Ev.iterFail ∈ iterEvents (env.out k) ∧ rowsOf (iterEvents (env.out k)) = [])
    ∧ (sessionRun mode env fuel).1 =
        Ev.headerWrite (headerFor mode) ::
          (blocksFrom env 0 n ++ Ev.stopCheck true :: closeTail env) := by
  refine ⟨sinkRows_closed mode env h1 h2 hf, ?_,
    congrArg Prod.fst (sessionRun_closed mode env h1 h2 hf)⟩
  intro k hk hke
  refine ⟨?_, rowsOf_iterEvents_err _ hke⟩
  cases ho : env.out k with
  | ok d t => rw [ho] at hke; simp [isErr] at hke
  | errTrigger => simp [iterEvents]
  | errFetch => simp [iterEvents]
  | errAppend d t => simp [iterEvents]

/-- Witness for C1 at the spec's scenario: 3 iterations, fetch errors on
iteration 2, and the sink holds exactly the rows of iterations 1 and 3. -/
theorem c1_iteration_error_isolated_witness :
    ((∀ j, j < 3 → envC1.stop j = false) ∧ envC1.stop 3 = true ∧ 3 < 4
      ∧ isErr (envC1.out 1) = true)
    ∧ rowsOf (sessionRun "C" envC1 4).1
        = [["1.000", "1.5e-9"], ["3.000", "1.5e-9"]] := by
  refine ⟨⟨by decide, by decide, by decide, by decide⟩, ?_⟩
  have h := c1_iteration_error_isolated "C" envC1 3 4 (by decide) (by decide) (by decide)
  rw [h.1]
  decide

/-- C2: the stop signal is polled exactly once per iteration, at the top of
the loop before any hardware command; when the poll reads true the loop
exits before issuing any further hardware command, and an iteration already
in flight runs to completion (or error) before the stop is honored: the
trace is exactly `n` whole blocks, each opened by its own poll, followed by
the final poll and the close events, which issue no hardware command. -/
theorem c2_stop_polled_once_per_iteration (mode : String) (env : Env) (n fuel : Nat)
    (h1 : ∀ j, j < n → env.stop j = false) (h2 : env.stop n = true) (hf : n < fuel) :
    (sessionRun mode env fuel).1 =
      Ev.headerWrite (headerFor mode) ::
        (blocksFrom env 0 n ++ Ev.stopCheck true :: closeTail env)
    ∧ ((sessionRun mode env fuel).1).countP isStopCheck = n + 1
    ∧ (∀ o, (iterEvents o).countP isStopCheck = 0)
    ∧ (Ev.stopCheck true :: closeTail env).countP isHardwareCmd = 0 := by
  have htr : (sessionRun mode env fuel).1 =
      Ev.headerWrite (headerFor mode) ::
        (blocksFrom env 0 n ++ Ev.stopCheck true :: closeTail env) :=
    congrArg Prod.fst (sessionRun_closed mode env h1 h2 hf)
  refine ⟨htr, ?_, countP_stopCheck_iterEvents, countP_hardware_stopClose env⟩
  rw [htr]
  have hsplit : blocksFrom env 0 n ++ Ev.stopCheck true :: closeTail env
      = blocksFrom env 0 n ++ ([Ev.stopCheck true] ++ closeTail env) := by simp
  rw [hsplit]
  simp [List.countP_cons, List.countP_append, countP_stopCheck_blocksFrom,
    countP_stopCheck_closeTail, isStopCheck]

/-- Witness for C2: two iterations, so three polls in the whole trace. -/
theorem c2_stop_polled_once_per_iteration_witness :
    ((∀ j, j < 2 → envC2.stop j = false) ∧ envC2.stop 2 = true ∧ 2 < 3)
    ∧ ((sessionRun "C" envC2 3).1).countP isStopCheck = 2 + 1 := by
  refine ⟨⟨by decide, by decide, by decide⟩, ?_⟩
  exact (c2_stop_polled_once_per_iteration "C" envC2 2 3 (by decide) (by decide)
    (by decide)).2.1

/-- C3: a terminated session with `N` successful iterations appends exactly
`N` rows, whose leading fields are the formatted elapsed times of those
iterations; under the 200 ms settle spacing the code enforces between
consecutive reads of the clock, those elapsed times are strictly
increasing, so each row's timestamp is strictly greater than the previous
row's even at the 3-decimal precision of the model. -/
theorem c3_row_count_and_increasing_timestamps (mode : String) (env : Env)
    (n fuel : Nat)
    (h1 : ∀ j, j < n → env.stop j = false) (h2 : env.stop n = true) (hf : n < fuel)
    (hgap : List.Chain' (fun a b => a + 200 ≤ b) (okTimes env n)) :
    (rowsOf (sessionRun mode env fuel).1).length = successCount env 0 n
    ∧ (rowsOf (sessionRun mode env fuel).1).map List.head?
        = (okTimes env n).map (fun t => some (format3 t))
    ∧ List.Chain' (fun a b => a < b) (okTimes env n) := by
  refine ⟨?_, ?_, hgap.imp (fun a b hab => by omega)⟩
  · rw [sinkRows_closed mode env h1 h2 hf, List.length_map, okListFrom_length]
  · rw [sinkRows_closed mode env h1 h2 hf]
    simp only [okTimes, List.map_map]
    rfl

/-- Witness for C3: two clean iterations 1000 ms apart give two rows with
strictly increasing timestamps. -/
theorem c3_row_count_and_increasing_timestamps_witness :
    ((∀ j, j < 2 → envC3.stop j = false) ∧ envC3.stop 2 = true ∧ 2 < 3
      ∧ List.Chain' (fun a b => a + 200 ≤ b) (okTimes envC3 2))
    ∧ (rowsOf (sessionRun "C" envC3 3).1).length = successCount envC3 0 2
    ∧ List.Chain' (fun a b => a < b) (okTimes envC3 2) := by
  have hok : okTimes envC3 2 = [1000, 2000] := by decide
  have hgap : List.Chain' (fun a b => a + 200 ≤ b) (okTimes envC3 2) := by
    rw [hok]
    exact List.chain'_pair.mpr (by omega)
  have h := c3_row_count_and_increasing_timestamps "C" envC3 2 3 (by decide)
    (by decide) (by decide) hgap
  exact ⟨⟨by decide, by decide, by decide, hgap⟩, h.1, h.2.2⟩

/-- C4: every session writes the header exactly once, as the very first
write, before any data row; and for each enumerated mode the header is the
timestamp column followed by that mode's data columns, so its column count
is 1 + the number of data columns (for mode C it is exactly
Timestamp, Capacitance (F)). -/
theorem c4_header_once_and_shapes (mode : String) (env : Env) (fuel : Nat) :
    writesOf (sessionRun mode env fuel).1
      = headerFor mode :: rowsOf (loopRun env 0 fuel).1
    ∧ ((sessionRun mode env fuel).1).countP isHeaderWrite = 1
    ∧ (∃ rest, (sessionRun mode env fuel).1 = Ev.headerWrite (headerFor mode) :: rest)
    ∧ (∀ m, m ∈ modeKeys → ∃ cols, headerFor m = "Timestamp" :: cols
        ∧ (headerFor m).length = 1 + cols.length)
    ∧ headerFor "C" = ["Timestamp", "Capacitance (F)"] := by
  refine ⟨writesOf_session mode env fuel, ?_, ⟨_, sessionRun_trace_shape mode env fuel⟩,
    ?_, by decide⟩
  · rw [sessionRun_trace_shape]
    cases h : (loopRun env 0 fuel).2
    · simp [List.countP_cons, List.countP_append, countP_headerWrite_loopRun,
        isHeaderWrite]
    · simp [List.countP_cons, List.countP_append, countP_headerWrite_loopRun,
        countP_headerWrite_closeTail, isHeaderWrite]
  · intro m hm
    simp only [modeKeys, List.mem_cons, List.mem_singleton] at hm
    rcases hm with rfl | rfl | rfl | rfl | rfl | rfl | rfl | h
    · exact ⟨["Impedance (Ohm)", "Phase Angle (deg)"], by decide, by decide⟩
    · exact ⟨["Resistance (Ohm)", "Reactance (Ohm)"], by decide, by decide⟩
    · exact ⟨["Capacitance (F)"], by decide, by decide⟩
    · exact ⟨["Inductance (H)"], by decide, by decide⟩
    · exact ⟨["Quality Factor"], by decide, by decide⟩
    · exact ⟨["Dissipation Factor"], by decide, by decide⟩
    · exact ⟨["DC Resistance (Ohm)"], by decide, by decide⟩
    · simp at h

/-- Witness for C4 at mode C: the mode is enumerated and its header is the
timestamp column plus one data column. -/
theorem c4_header_once_and_shapes_witness :
    ("C" ∈ modeKeys)
    ∧ (∃ cols, headerFor "C" = "Timestamp" :: cols
        ∧ (headerFor "C").length = 1 + cols.length)
    ∧ ((sessionRun "C" envC4 2).1).countP isHeaderWrite = 1 := by
  have h := c4_header_once_and_shapes "C" envC4 2
  exact ⟨by decide, h.2.2.2.1 "C" (by decide), h.2.1⟩

/-- C5: every appended record is the formatted elapsed time followed by the
fetched response split on commas with surrounding whitespace trimmed from
each field, kept as raw strings; the timestamp is the integral seconds, a
dot, and exactly three fractional digits. -/
theorem c5_record_shape (mode : String) (env : Env) (n fuel : Nat)
    (h1 : ∀ j, j < n → env.stop j = false) (h2 : env.stop n = true) (hf : n < fuel) :
    rowsOf (sessionRun mode env fuel).1
      = (okListFrom env 0 n).map (fun p => format3 p.2 :: parseValues p.1)
    ∧ (∀ t, format3 t = toString (t / 1000) ++ "." ++ fracDigits t
        ∧ (fracDigits t).length = 3) := by
  refine ⟨?_, fun t => ⟨rfl, rfl⟩⟩
  rw [sinkRows_closed mode env h1 h2 hf]
  rfl

/-- Witness for C5: the padded response " 1.0 , 2.0 " fetched at 1234 ms
yields exactly the row ["1.234", "1.0", "2.0"]. -/
theorem c5_record_shape_witness :
    ((∀ j, j < 1 → envC5.stop j = false) ∧ envC5.stop 1 = true ∧ 1 < 2)
    ∧ rowsOf (sessionRun "C" envC5 2).1 = [["1.234", "1.0", "2.0"]] := by
  refine ⟨⟨by decide, by decide, by decide⟩, ?_⟩
  have h := c5_record_shape "C" envC5 1 2 (by decide) (by decide) (by decide)
  rw [h.1]
  decide

/-- C7 as stated is false on the code: at a concrete fetch whose value count
differs from the expected column count, the row is still written exactly as
received, but no advisory appears anywhere in the session trace — the
advisory print is commented out in the source. -/
theorem c7_counterexample :
    (parseValues "1, 2, 3").length ≠ expectedValues "C"
    ∧ Ev.rowWrite ["0.500", "1", "2", "3"] ∈ (sessionRun "C" envC7 2).1
    ∧ Ev.advisory ∉ (sessionRun "C" envC7 2).1 := by decide

/-- C7 amended: an iteration whose fetched value count differs from the
mode's expected column count is tolerated silently — the row is still
written to the sink exactly as received, and no advisory is logged. -/
theorem c7_ragged_rows_written_silently (mode : String) (env : Env) (n fuel : Nat)
    (h1 : ∀ j, j < n → env.stop j = false) (h2 : env.stop n = true) (hf : n < fuel) :
    (∀ j d t, j < n → env.out j = Outcome.ok d t →
        (parseValues d).length ≠ expectedValues mode →
        Ev.rowWrite (format3 t :: parseValues d) ∈ (sessionRun mode env fuel).1)
    ∧ Ev.advisory ∉ (sessionRun mode env fuel).1 := by
  refine ⟨?_, advisory_not_mem_session mode env fuel⟩
  intro j d t hj hout hmis
  have hmem : (d, t) ∈ okListFrom env 0 n :=
    okListFrom_mem env n 0 j d t hj (by simpa using hout)
  have hrow : format3 t :: parseValues d ∈ rowsOf (sessionRun mode env fuel).1 := by
    rw [sinkRows_closed mode env h1 h2 hf]
    exact List.mem_map_of_mem mkRow hmem
  exact rowWrite_mem_of_mem_rowsOf hrow

/-- Witness for the amended C7: the three-field response in mode C (one
expected column) is written as received. -/
theorem c7_ragged_rows_written_silently_witness :
    ((∀ j, j < 1 → envC7.stop j = false) ∧ envC7.stop 1 = true ∧ 1 < 2
      ∧ envC7.out 0 = Outcome.ok "1, 2, 3" 500
      ∧ (parseValues "1, 2, 3").length ≠ expectedValues "C")
    ∧ Ev.rowWrite (format3 500 :: parseValues "1, 2, 3") ∈ (sessionRun "C" envC7 2).1 := by
  refine ⟨⟨by decide, by decide, by decide, by decide, by decide⟩, ?_⟩
  exact (c7_ragged_rows_written_silently "C" envC7 1 2 (by decide) (by decide)
    (by decide)).1 0 "1, 2, 3" 500 (by decide) (by decide) (by decide)

/-- C8 as stated is false on the code: the close is unguarded, so when the
transport close itself raises, the error propagates past the loop boundary —
here a session reaches Terminated, the close is attempted once, the escape
flag is set and the final status update never runs. -/
theorem c8_counterexample :
    (loopRun envC8 0 2).2 = true
    ∧ ((sessionRun "C" envC8 2).1).countP isCloseCall = 1
    ∧ (sessionRun "C" envC8 2).2 = true
    ∧ Ev.stoppedStatus ∉ (sessionRun "C" envC8 2).1 := by decide

/-- C8 amended: on every terminated session the transport close runs exactly
once, unconditionally — also when the most recent iteration ended in a
caught error — but the close is not guarded: an exception from the close
itself escapes past the loop boundary exactly when the close fails. -/
theorem c8_close_once_unguarded (mode : String) (env : Env) (n fuel : Nat)
    (h1 : ∀ j, j < n → env.stop j = false) (h2 : env.stop n = true) (hf : n < fuel) :
    ((sessionRun mode env fuel).1).countP isCloseCall = 1
    ∧ (sessionRun mode env fuel).2 = env.closeFails := by
  have htr : (sessionRun mode env fuel).1 =
      Ev.headerWrite (headerFor mode) ::
        (blocksFrom env 0 n ++ Ev.stopCheck true :: closeTail env) :=
    congrArg Prod.fst (sessionRun_closed mode env h1 h2 hf)
  refine ⟨?_, congrArg Prod.snd (sessionRun_closed mode env h1 h2 hf)⟩
  rw [htr]
  have hsplit : blocksFrom env 0 n ++ Ev.stopCheck true :: closeTail env
      = blocksFrom env 0 n ++ ([Ev.stopCheck true] ++ closeTail env) := by simp
  rw [hsplit]
  simp [List.countP_cons, List.countP_append, countP_closeCall_blocksFrom,
    countP_closeCall_closeTail, isCloseCall]

/-- Witness for the amended C8: a session whose final iteration errors still
closes exactly once and lets nothing escape when the close succeeds. -/
theorem c8_close_once_unguarded_witness :
    ((∀ j, j < 2 → envC8w.stop j = false) ∧ envC8w.stop 2 = true ∧ 2 < 3
      ∧ isErr (envC8w.out 1) = true)
    ∧ ((sessionRun "C" envC8w 3).1).countP isCloseCall = 1
    ∧ (sessionRun "C" envC8w 3).2 = false := by
  have h := c8_close_once_unguarded "C" envC8w 2 3 (by decide) (by decide) (by decide)
  exact ⟨⟨by decide, by decide, by decide, by decide⟩, h.1, h.2⟩

/-- C9: a mode outside the enumerated set does not break the loop: the
header falls back to the default (so 2 expected value columns beyond the
timestamp by the source's count), and the session records rows under that
header exactly as it would for any mode. -/
theorem c9_unknown_mode_defaults (mode : String) (h : mode ∉ modeKeys) :
    headerFor mode = ["Timestamp", "Measurement Value", "N/A"]
    ∧ expectedValues mode = 2
    ∧ ∀ env fuel, writesOf (sessionRun mode env fuel).1
        = ["Timestamp", "Measurement Value", "N/A"] :: rowsOf (loopRun env 0 fuel).1 := by
  simp only [modeKeys, List.mem_cons, List.mem_singleton, not_or] at h
  obtain ⟨h1, h2, h3, h4, h5, h6, h7, -⟩ := h
  have hb1 : (mode == "Z-deg") = false := beq_eq_false_iff_ne.mpr h1
  have hb2 : (mode == "R-X") = false := beq_eq_false_iff_ne.mpr h2
  have hb3 : (mode == "C") = false := beq_eq_false_iff_ne.mpr h3
  have hb4 : (mode == "L") = false := beq_eq_false_iff_ne.mpr h4
  have hb5 : (mode == "Q") = false := beq_eq_false_iff_ne.mpr h5
  have hb6 : (mode == "D") = false := beq_eq_false_iff_ne.mpr h6
  have hb7 : (mode == "DCR") = false := beq_eq_false_iff_ne.mpr h7
  have hlk : HeaderMapping.lookup mode = none := by
    simp [HeaderMapping, List.lookup, hb1, hb2, hb3, hb4, hb5, hb6, hb7]
  refine ⟨by simp [headerFor, hlk], by simp [expectedValues, headerFor, hlk], ?_⟩
  intro env fuel
  rw [writesOf_session]
  simp [headerFor, hlk]

/-- Witness for C9 at the unknown mode XYZ. -/
theorem c9_unknown_mode_defaults_witness :
    ("XYZ" ∉ modeKeys)
    ∧ headerFor "XYZ" = ["Timestamp", "Measurement Value", "N/A"]
    ∧ expectedValues "XYZ" = 2 := by
  have h := c9_unknown_mode_defaults "XYZ" (by decide)
  exact ⟨by decide, h.1, h.2.1⟩

/-- C10: the sink is opened in write mode, so the file after the session
does not depend on any prior contents (they are truncated away); within the
session writes only ever append — running the loop longer only extends the
file — and every data row is flushed immediately after being written. -/
theorem c10_sink_truncate_append_flush (prior : List (List String)) (mode : String)
    (env : Env) (fuel k : Nat) :
    openContents prior recordOpenMode = []
    ∧ fileAfterSession prior mode env fuel
        = headerFor mode :: rowsOf (loopRun env 0 fuel).1
    ∧ (∃ t, fileAfterSession prior mode env (fuel + k)
        = fileAfterSession prior mode env fuel ++ t)
    ∧ RowFlushed (sessionRun mode env fuel).1 := by
  refine ⟨rfl, ?_, ?_, rowFlushed_session mode env fuel⟩
  · simp [fileAfterSession, openContents, recordOpenMode, writesOf_session]
  · obtain ⟨t, ht⟩ := loopRun_fuel_ext env fuel k 0
    refine ⟨rowsOf t, ?_⟩
    simp [fileAfterSession, openContents, recordOpenMode, writesOf_session, ht,
      rowsOf_append]

theorem levelMin_eq : levelMin = 0.005 := by
  norm_num [levelMin, Rat.mk'_eq_divInt, Rat.divInt_eq_div]

theorem freqInRange_iff (f : ℚ) : freqInRange f = true ↔ (20 ≤ f ∧ f ≤ 500000) := by
  simp [freqInRange]

theorem levelInRange_iff (l : ℚ) :
    levelInRange l = true ↔ ((0.005 : ℚ) ≤ l ∧ l ≤ 2) := by
  rw [show (0.005 : ℚ) = levelMin from levelMin_eq.symm]
  simp [levelInRange]

theorem intervalPos_iff (r : ℚ) : intervalPos r = true ↔ 0 < r := by
  simp [intervalPos]

/-- Exhaustive classification of `StartValidate`'s result, in the source's
check order: frequency first, then level, then interval, then filename. -/
theorem startValidate_cases (mode : String) (freqIn levelIn intervalIn : Option ℚ)
    (speed filenameIn : String) :
    (acceptsFreq freqIn = false
      ∧ StartValidate mode freqIn levelIn speed intervalIn filenameIn
          = .error .freqRange)
    ∨ (acceptsFreq freqIn = true ∧ acceptsLevel levelIn = false
      ∧ StartValidate mode freqIn levelIn speed intervalIn filenameIn
          = .error .levelRange)
    ∨ (acceptsFreq freqIn = true ∧ acceptsLevel levelIn = true
      ∧ acceptsInterval intervalIn = false
      ∧ StartValidate mode freqIn levelIn speed intervalIn filenameIn
          = .error .intervalPositive)
    ∨ (acceptsFreq freqIn = true ∧ acceptsLevel levelIn = true
      ∧ acceptsInterval intervalIn = true ∧ pyStripS filenameIn = ""
      ∧ StartValidate mode freqIn levelIn speed intervalIn filenameIn
          = .error .emptyFilename)
    ∨ (acceptsFreq freqIn = true ∧ acceptsLevel levelIn = true
      ∧ acceptsInterval intervalIn = true ∧ pyStripS filenameIn ≠ ""
      ∧ ∃ cfg, StartValidate mode freqIn levelIn speed intervalIn filenameIn
          = .ok cfg) := by
  rcases freqIn with _ | f
  · exact Or.inl ⟨rfl, rfl⟩
  · cases hfr : freqInRange f
    · exact Or.inl ⟨by simp [acceptsFreq, hfr], by simp [StartValidate, hfr]⟩
    · rcases levelIn with _ | l
      · exact Or.inr (Or.inl ⟨by simp [acceptsFreq, hfr], rfl,
          by simp [StartValidate, hfr]⟩)
      · cases hlv : levelInRange l
        · exact Or.inr (Or.inl ⟨by simp [acceptsFreq, hfr],
            by simp [acceptsLevel, hlv], by simp [StartValidate, hfr, hlv]⟩)
        · rcases intervalIn with _ | r
          · exact Or.inr (Or.inr (Or.inl ⟨by simp [acceptsFreq, hfr],
              by simp [acceptsLevel, hlv], rfl, by simp [StartValidate, hfr, hlv]⟩))
          · cases hiv : intervalPos r
            · exact Or.inr (Or.inr (Or.inl ⟨by simp [acceptsFreq, hfr],
                by simp [acceptsLevel, hlv], by simp [acceptsInterval, hiv],
                by simp [StartValidate, hfr, hlv, hiv]⟩))
            · by_cases hfn : pyStripS filenameIn = ""
              · refine Or.inr (Or.inr (Or.inr (Or.inl ⟨by simp [acceptsFreq, hfr],
                  by simp [acceptsLevel, hlv], by simp [acceptsInterval, hiv], hfn,
                  ?_⟩)))
                simp [StartValidate, hfr, hlv, hiv, hfn]
              · refine Or.inr (Or.inr (Or.inr (Or.inr ⟨by simp [acceptsFreq, hfr],
                  by simp [acceptsLevel, hlv], by simp [acceptsInterval, hiv], hfn,
                  ?_⟩)))
                simp only [StartValidate, hfr, hlv, hiv, if_true]
                rw [if_neg hfn]
                exact ⟨_, rfl⟩

/-- A validation rejection issues no action at all: no connection is opened
and no command is sent. -/
theorem startActions_of_error (mode : String) (freqIn levelIn intervalIn : Option ℚ)
    (speed filenameIn : String) (e : InputError)
    (he : StartValidate mode freqIn levelIn speed intervalIn filenameIn = .error e) :
    ∀ connOk cfgFail,
      startActions mode freqIn levelIn speed intervalIn filenameIn connOk cfgFail
        = [] := by
  intro connOk cfgFail
  simp [startActions, he]

/-- C6: validation accepts a sampling frequency iff it lies in
[20, 500000] Hz (20 and 500000 accepted, 19.999 and 500000.1 rejected),
rejecting otherwise with the frequency-range error; accepts a signal level
iff it lies in [0.005, 2] V (endpoints accepted); accepts a recording
interval iff it is positive; and any rejection happens before any hardware
interaction — a rejected start performs no action. -/
theorem c6_validation_ranges (mode : String) (freqIn levelIn intervalIn : Option ℚ)
    (speed filenameIn : String) :
    (StartValidate mode freqIn levelIn speed intervalIn filenameIn
        = .error .freqRange ↔ acceptsFreq freqIn = false)
    ∧ (StartValidate mode freqIn levelIn speed intervalIn filenameIn
        = .error .levelRange
        ↔ (acceptsFreq freqIn = true ∧ acceptsLevel levelIn = false))
    ∧ (StartValidate mode freqIn levelIn speed intervalIn filenameIn
        = .error .intervalPositive
        ↔ (acceptsFreq freqIn = true ∧ acceptsLevel levelIn = true
            ∧ acceptsInterval intervalIn = false))
    ∧ (∀ f : ℚ, acceptsFreq (some f) = true ↔ (20 ≤ f ∧ f ≤ 500000))
    ∧ (∀ l : ℚ, acceptsLevel (some l) = true ↔ ((0.005 : ℚ) ≤ l ∧ l ≤ 2))
    ∧ (∀ r : ℚ, acceptsInterval (some r) = true ↔ 0 < r)
    ∧ (freqInRange 20 = true ∧ freqInRange 500000 = true
        ∧ freqInRange 19.999 = false ∧ freqInRange 500000.1 = false
        ∧ levelInRange 0.005 = true ∧ levelInRange 2 = true)
    ∧ (∀ e, StartValidate mode freqIn levelIn speed intervalIn filenameIn
          = .error e →
        ∀ connOk cfgFail,
          startActions mode freqIn levelIn speed intervalIn filenameIn connOk cfgFail
            = []) := by
  refine ⟨?_, ?_, ?_, ?_, ?_, ?_, ?_, ?_⟩
  · rcases startValidate_cases mode freqIn levelIn intervalIn speed filenameIn with
      ⟨ha, he⟩ | ⟨ha, hl, he⟩ | ⟨ha, hl, hi, he⟩ | ⟨ha, hl, hi, hfn, he⟩ |
      ⟨ha, hl, hi, hfn, cfg, he⟩ <;> rw [he] <;> simp_all
  · rcases startValidate_cases mode freqIn levelIn intervalIn speed filenameIn with
      ⟨ha, he⟩ | ⟨ha, hl, he⟩ | ⟨ha, hl, hi, he⟩ | ⟨ha, hl, hi, hfn, he⟩ |
      ⟨ha, hl, hi, hfn, cfg, he⟩ <;> rw [he] <;> simp_all
  · rcases startValidate_cases mode freqIn levelIn intervalIn speed filenameIn with
      ⟨ha, he⟩ | ⟨ha, hl, he⟩ | ⟨ha, hl, hi, he⟩ | ⟨ha, hl, hi, hfn, he⟩ |
      ⟨ha, hl, hi, hfn, cfg, he⟩ <;> rw [he] <;> simp_all
  · intro f
    simpa [acceptsFreq] using freqInRange_iff f
  · intro l
    simpa [acceptsLevel] using levelInRange_iff l
  · intro r
    simpa [acceptsInterval] using intervalPos_iff r
  · refine ⟨by decide, by decide, ?_, ?_, ?_, ?_⟩
    · norm_num [freqInRange]
    · norm_num [freqInRange]
    · norm_num [levelInRange, levelMin_eq]
    · norm_num [levelInRange, levelMin_eq]
  · intro e he
    exact startActions_of_error mode freqIn levelIn intervalIn speed filenameIn e he

/-- Witness for C6: a frequency below the range is rejected with the
frequency-range error before any action is taken. -/
theorem c6_validation_ranges_witness :
    (StartValidate "C" (some 19) (some 1) "med" (some 1) "f" = .error .freqRange)
    ∧ startActions "C" (some 19) (some 1) "med" (some 1) "f" true none = [] := by
  have h := c6_validation_ranges "C" (some 19) (some 1) (some 1) "med" "f"
  have he : StartValidate "C" (some 19) (some 1) "med" (some 1) "f"
      = .error .freqRange := by decide
  exact ⟨he, h.2.2.2.2.2.2.2 InputError.freqRange he true none⟩

end LCR
